import Mathlib

/-!
# Trakt-Sync: verification of the reconciliation engine and resilient API client

Shallow embedding of the core of the Trakt-Sync repository:

* `internal/sync/sync.go` — the reconciliation engine (`calculateDiff`,
  `uniqueIDs`, `shouldFullRefresh`, `SyncAll`);
* `internal/trakt/client.go` — the rate-aware request executor
  (`backoffDuration`, `waitForRateLimit`, the `doRequest` retry loop);
* `internal/trakt/lists.go` — the list manager (`GetList`, `EnsureListExists`);
* the OAuth device-flow authenticator (`PollForToken`, `RefreshAccessToken`).

Go machine integers are modelled as `Int` with explicit two's-complement
wraparound (`wrap64`) where 64-bit overflow matters.  Go's `time.Time` values
are modelled as `Option Int` (nanoseconds; `none` is the zero value, matching
`IsZero`), and durations as `Int` nanoseconds.  Effectful calls (HTTP requests)
are modelled by passing their outcomes in explicitly.
-/

namespace TraktSync

/-! ## Data model (`internal/trakt` model types) -/

/-- Embeds `MediaIDs` from the Go model: the identity record of a media item.
`trakt` is the integer service ID used as the diffing key. -/
structure MediaIDs where
  trakt : Int
  slug : String
  imdb : String
  tmdb : Int
  deriving Repr, DecidableEq

/-- The zero value of `MediaIDs` (what a Go `trakt.MediaIDs` variable holds
before assignment). -/
def zeroMediaIDs : MediaIDs := { trakt := 0, slug := "", imdb := "", tmdb := 0 }

/-- Embeds `Movie` from the Go model. -/
structure Movie where
  title : String
  year : Int
  ids : MediaIDs
  deriving Repr, DecidableEq

/-- Embeds `Show` from the Go model (a TV show). -/
structure TvShow where
  title : String
  year : Int
  ids : MediaIDs
  deriving Repr, DecidableEq

/-- Embeds `ListItem` from the Go model: `Movie` and `Show` are nullable pointers,
modelled as `Option`s.  (`Show` is spelled `tvShow` here because `show` is a
Lean keyword.) -/
structure ListItem where
  rank : Int
  itemType : String
  movie : Option Movie
  tvShow : Option TvShow
  deriving Repr, DecidableEq

/-! ## Reconciliation engine (`internal/sync/sync.go`) -/

/-- The service ID of a list item, when it can be determined: the first branch
of the `if item.Movie != nil ... else if item.Show != nil ...` chains in
`calculateDiff`.  `none` when neither embedded object is populated. -/
def itemTraktID (item : ListItem) : Option Int :=
  match item.movie with
  | some m => some m.ids.trakt
  | none =>
    match item.tvShow with
    | some s => some s.ids.trakt
    | none => none

/-- The `(traktID, ids)` pair computed by the second loop of `calculateDiff`:
Go declares `var traktID int; var ids trakt.MediaIDs` with zero values and
only assigns them when `Movie` or `Show` is populated. -/
def removalEntry (item : ListItem) : Int × MediaIDs :=
  match item.movie with
  | some m => (m.ids.trakt, m.ids)
  | none =>
    match item.tvShow with
    | some s => (s.ids.trakt, s.ids)
    | none => (0, zeroMediaIDs)

/-- Embeds `calculateDiff` from `internal/sync/sync.go`.  The Go maps `currentMap`
(set of service IDs of determinable current items) and `newMap` (keyed by
target service IDs) are modelled by list membership, which matches Go map
lookup semantics (`currentMap[k]` is `false`, and `_, exists := newMap[k]`
has `exists = false`, exactly when `k` was never inserted). -/
def calculateDiff (current : List ListItem) (target : List MediaIDs) :
    List MediaIDs × List MediaIDs :=
  let currentKeys : List Int := current.filterMap itemTraktID
  let newKeys : List Int := target.map (fun ids => ids.trakt)
  let toAdd := target.filter (fun ids => decide (ids.trakt ∉ currentKeys))
  let toRemove :=
    ((current.map removalEntry).filter (fun p => decide (p.1 ∉ newKeys))).map Prod.snd
  (toAdd, toRemove)

/-- Embeds `uniqueIDs` from `internal/sync/sync.go`: deduplicate by `Trakt` service
ID, keeping the first occurrence.  The `seen` map is modelled as the list of
already-kept keys. -/
def uniqueIDsAux (seen : List Int) : List MediaIDs → List MediaIDs
  | [] => []
  | ids :: rest =>
    if ids.trakt ∈ seen then uniqueIDsAux seen rest
    else ids :: uniqueIDsAux (seen ++ [ids.trakt]) rest

/-- Entry point of `uniqueIDs` (empty `seen` map). -/
def uniqueIDs (items : List MediaIDs) : List MediaIDs :=
  uniqueIDsAux [] items

/-! ### Concrete fixtures used by witnesses and counterexamples -/

/-- An identity with the given service ID and empty informational fields. -/
def mids (k : Int) : MediaIDs := { trakt := k, slug := "", imdb := "", tmdb := 0 }

/-- A well-formed movie list item with the given service ID. -/
def mItem (k : Int) : ListItem :=
  { rank := 0, itemType := "movie", movie := some { title := "", year := 0, ids := mids k },
    tvShow := none }

/-- A degenerate list item with neither `Movie` nor `Show` populated (its
identity cannot be determined). -/
def undetItem : ListItem := { rank := 0, itemType := "", movie := none, tvShow := none }

/-! ### Helper lemmas about the diff -/

lemma removalEntry_snd_trakt (it : ListItem) :
    (removalEntry it).2.trakt = (removalEntry it).1 := by
  rcases it with ⟨r, t, m, s⟩
  cases m <;> cases s <;> rfl

lemma removalEntry_fst (it : ListItem) (k : Int) (h : itemTraktID it = some k) :
    (removalEntry it).1 = k := by
  rcases it with ⟨r, t, m, s⟩
  cases m <;> cases s <;> simp [itemTraktID, removalEntry] at h ⊢ <;> omega

lemma mem_toAdd_iff (c : List ListItem) (t : List MediaIDs) (a : MediaIDs) :
    a ∈ (calculateDiff c t).1 ↔ a ∈ t ∧ a.trakt ∉ c.filterMap itemTraktID := by
  unfold calculateDiff
  simp [List.mem_filter]

lemma mem_toRemove_iff (c : List ListItem) (t : List MediaIDs) (r : MediaIDs) :
    r ∈ (calculateDiff c t).2 ↔
      ∃ it ∈ c, (removalEntry it).2 = r ∧
        (removalEntry it).1 ∉ t.map (fun ids => ids.trakt) := by
  unfold calculateDiff
  simp only [List.mem_map, List.mem_filter, decide_eq_true_eq]
  constructor
  · rintro ⟨⟨k, ids⟩, ⟨⟨it, hit, hent⟩, hnot⟩, rfl⟩
    exact ⟨it, hit, by rw [hent], by rw [hent]; exact hnot⟩
  · rintro ⟨it, hit, hsnd, hnot⟩
    exact ⟨removalEntry it, ⟨⟨it, hit, rfl⟩, hnot⟩, hsnd⟩

lemma toRemove_trakt_not_target (c : List ListItem) (t : List MediaIDs) (r : MediaIDs)
    (hr : r ∈ (calculateDiff c t).2) : r.trakt ∉ t.map (fun ids => ids.trakt) := by
  obtain ⟨it, _, hsnd, hnot⟩ := (mem_toRemove_iff c t r).mp hr
  rw [← hsnd, removalEntry_snd_trakt]
  exact hnot

/-! ### C1 — diff correctness -/

/-- Spec-side reading of step 2 of the incremental diff: every target identity
whose service ID does not belong to any (determinable) current item, in target
order. -/
def specToAdd (current : List ListItem) (target : List MediaIDs) : List MediaIDs :=
  target.filter (fun ids => decide (∀ it ∈ current, itemTraktID it ≠ some ids.trakt))

/-- Spec-side reading of step 3 of the incremental diff over the code's data
representation: every current item — an item with no determinable identity
contributing service ID `0` and a zero-value identity — whose service ID is
absent from the target, in current order. -/
def specToRemove (current : List ListItem) (target : List MediaIDs) : List MediaIDs :=
  (current.filter (fun it => decide (∀ t ∈ target, t.trakt ≠ (removalEntry it).1))).map
    (fun it => (removalEntry it).2)

/-- The C1 property: the computed diff agrees with the spec-side sets, and
both set differences (by service ID) are disjoint from the other side. -/
def DiffCorrect (current : List ListItem) (target : List MediaIDs) : Prop :=
  (calculateDiff current target).1 = specToAdd current target
  ∧ (calculateDiff current target).2 = specToRemove current target
  ∧ (∀ a ∈ (calculateDiff current target).1, ∀ it ∈ current, itemTraktID it ≠ some a.trakt)
  ∧ (∀ r ∈ (calculateDiff current target).2, ∀ t ∈ target, t.trakt ≠ r.trakt)

/-- Claim C1 (amended): for every current list and every target sequence
deduplicated by service ID, `calculateDiff` returns `toAdd` = exactly the
target identities whose service ID is not among the determinable current
items' service IDs, in target order, and `toRemove` = in current order the
identity of every current item whose service ID is absent from the target —
where an item whose identity cannot be determined is not ignored but
contributes service ID `0` and a zero-value identity.  Consequently
`toAdd ∩ current = ∅` and `toRemove ∩ target = ∅` by service ID. -/
theorem calculateDiff_correct (current : List ListItem) (target : List MediaIDs)
    (_hdedup : (target.map (fun ids => ids.trakt)).Nodup) :
    DiffCorrect current target := by
  refine ⟨?_, ?_, ?_, ?_⟩
  · unfold calculateDiff specToAdd
    apply List.filter_congr
    intro ids _
    rw [decide_eq_decide]
    simp only [List.mem_filterMap]
    push_neg
    constructor
    · intro h it hit heq
      exact h it hit heq
    · intro h it hit heq
      exact h it hit heq
  · unfold calculateDiff specToRemove
    simp only [List.filter_map, List.map_map]
    congr 1
    apply List.filter_congr
    intro it _
    rw [Function.comp_apply, decide_eq_decide]
    simp only [List.mem_map]
    push_neg
    constructor
    · intro h t ht heq
      exact h t ht heq
    · intro h t ht heq
      exact h t ht heq
  · intro a ha it hit heq
    unfold calculateDiff at ha
    simp only [List.mem_filter, decide_eq_true_eq, List.mem_filterMap] at ha
    exact ha.2 ⟨it, hit, heq⟩
  · intro r hr t ht heq
    exact toRemove_trakt_not_target current target r hr (heq ▸ List.mem_map_of_mem _ ht)

/-- Witness for C1: the spec's own example `current = [{1},{2}]`,
`target = [{2},{3}]`. -/
theorem calculateDiff_correct_witness :
    DiffCorrect [mItem 1, mItem 2] [mids 2, mids 3] :=
  calculateDiff_correct _ _ (by decide)

/-- Counterexample to C1 as stated: a current item whose identity cannot be
determined is not ignored by the `toRemove` loop — against an empty target it
contributes the zero-value identity to `toRemove`, which the claim says should
be empty. -/
theorem calculateDiff_claim_counterexample :
    (calculateDiff [undetItem] []).2 = [zeroMediaIDs]
    ∧ (calculateDiff [undetItem] []).2 ≠ [] := by
  constructor <;> decide

/-! ### C2 — idempotence -/

/-- A list item as the remote service would report it after an identity is
added to a movie (or show) list. -/
def mkListItem (isMovie : Bool) (ids : MediaIDs) : ListItem :=
  if isMovie then
    { rank := 0, itemType := "movie",
      movie := some { title := "", year := 0, ids := ids }, tvShow := none }
  else
    { rank := 0, itemType := "show", movie := none,
      tvShow := some { title := "", year := 0, ids := ids } }

lemma itemTraktID_mk (b : Bool) (ids : MediaIDs) :
    itemTraktID (mkListItem b ids) = some ids.trakt := by
  cases b <;> rfl

lemma removalEntry_mk (b : Bool) (ids : MediaIDs) :
    removalEntry (mkListItem b ids) = (ids.trakt, ids) := by
  cases b <;> rfl

/-- Modelled from the spec: applying a computed diff to the current list —
"removing `toRemove`, adding `toAdd`" — removes every current item whose
identity's service ID occurs in `toRemove` and appends the added identities
as fresh items of the list's kind. -/
def applyDiff (current : List ListItem) (toAdd toRemove : List MediaIDs) (isMovie : Bool) :
    List ListItem :=
  (current.filter (fun it => decide (∀ r ∈ toRemove, itemTraktID it ≠ some r.trakt)))
    ++ toAdd.map (mkListItem isMovie)

/-- The C2 property: re-diffing the updated list against the same target
yields an empty diff. -/
def DiffIdempotent (current : List ListItem) (target : List MediaIDs) (isMovie : Bool) : Prop :=
  calculateDiff
    (applyDiff current (calculateDiff current target).1 (calculateDiff current target).2 isMovie)
    target = ([], [])

/-- Claim C2: for every current list of well-formed items (each embeds a movie
or a show, the spec's `ListItem` data model) and every target deduplicated by
service ID, applying the computed diff and re-diffing against the same target
yields empty `toAdd` and `toRemove`. -/
theorem calculateDiff_idempotent (current : List ListItem) (target : List MediaIDs)
    (isMovie : Bool)
    (hwf : ∀ it ∈ current, itemTraktID it ≠ none)
    (_hdedup : (target.map (fun ids => ids.trakt)).Nodup) :
    DiffIdempotent current target isMovie := by
  unfold DiffIdempotent
  set A := (calculateDiff current target).1 with hA
  set R := (calculateDiff current target).2 with hR
  set cur' := applyDiff current A R isMovie with hcur'
  -- every target key is a determinable key of the updated list
  have keys_cover : ∀ ids ∈ target, ids.trakt ∈ cur'.filterMap itemTraktID := by
    intro ids hids
    rw [hcur']
    unfold applyDiff
    rw [List.filterMap_append]
    by_cases hk : ids.trakt ∈ current.filterMap itemTraktID
    · -- the old item survives the removal filter
      apply List.mem_append_left
      rw [List.mem_filterMap] at hk ⊢
      obtain ⟨it, hit, hid⟩ := hk
      refine ⟨it, ?_, hid⟩
      rw [List.mem_filter]
      refine ⟨hit, ?_⟩
      rw [decide_eq_true_eq]
      intro r hrR heq
      have := toRemove_trakt_not_target current target r (hR ▸ hrR)
      apply this
      rw [hid] at heq
      have : r.trakt = ids.trakt := by
        injection heq with h
        omega
      rw [this]
      exact List.mem_map_of_mem _ hids
    · -- the identity was freshly added
      apply List.mem_append_right
      rw [List.mem_filterMap]
      refine ⟨mkListItem isMovie ids, ?_, itemTraktID_mk isMovie ids⟩
      apply List.mem_map_of_mem
      rw [hA, mem_toAdd_iff]
      exact ⟨hids, hk⟩
  -- every key of the updated list is a target key
  have keys_sub : ∀ it ∈ cur', (removalEntry it).1 ∈ target.map (fun ids => ids.trakt) := by
    intro it hit
    rw [hcur'] at hit
    unfold applyDiff at hit
    rw [List.mem_append] at hit
    rcases hit with hkept | hadded
    · rw [List.mem_filter, decide_eq_true_eq] at hkept
      obtain ⟨hmem, hkeep⟩ := hkept
      obtain ⟨k, hk⟩ := Option.ne_none_iff_exists'.mp (hwf it hmem)
      by_contra habs
      rw [removalEntry_fst it k hk] at habs
      have hrm : (removalEntry it).2 ∈ R := by
        rw [hR, mem_toRemove_iff]
        exact ⟨it, hmem, rfl, by rw [removalEntry_fst it k hk]; exact habs⟩
      apply hkeep _ hrm
      rw [removalEntry_snd_trakt, removalEntry_fst it k hk, hk]
    · rw [List.mem_map] at hadded
      obtain ⟨ids, hids, rfl⟩ := hadded
      rw [removalEntry_mk]
      have : ids ∈ target := ((mem_toAdd_iff current target ids).mp (hA ▸ hids)).1
      exact List.mem_map_of_mem _ this
  rw [Prod.ext_iff]
  constructor
  · show (calculateDiff cur' target).1 = []
    unfold calculateDiff
    rw [List.filter_eq_nil_iff]
    intro ids hids
    rw [decide_eq_true_eq]
    push_neg
    exact keys_cover ids hids
  · show (calculateDiff cur' target).2 = []
    unfold calculateDiff
    rw [List.map_eq_nil_iff, List.filter_eq_nil_iff]
    rintro ⟨k, ids⟩ hp
    rw [List.mem_map] at hp
    obtain ⟨it, hit, hent⟩ := hp
    rw [decide_eq_true_eq]
    push_neg
    have := keys_sub it hit
    rw [hent] at this
    exact this

/-- Witness for C2: the spec's example instance. -/
theorem calculateDiff_idempotent_witness :
    DiffIdempotent [mItem 1, mItem 2] [mids 2, mids 3] true :=
  calculateDiff_idempotent _ _ _ (by decide) (by decide)

/-! ## Full-refresh trigger policy (`shouldFullRefresh` in `internal/sync/sync.go`)

Instants are `Option Int` nanoseconds (`none` is Go's zero `time.Time`,
matching `IsZero`); durations are `Int` nanoseconds. -/

/-- Value of `time.Hour` in nanoseconds. -/
def hourNs : Int := 3600 * 1000000000

/-- A 24-hour day in nanoseconds. -/
def dayNs : Int := 24 * hourNs

/-- The `LastFullRefresh` config block: per-kind last-full-refresh instants. -/
structure FullRefreshState where
  movies : Option Int
  shows : Option Int
  deriving Repr, DecidableEq

/-- The part of the sync configuration that `shouldFullRefresh` reads. -/
structure SyncTimesConfig where
  fullRefreshDays : Int
  lastFullRefresh : FullRefreshState
  deriving Repr, DecidableEq

/-- Embeds `lastFullRefresh` from `internal/sync/sync.go`: the per-kind timestamp. -/
def lastFullRefresh (cfg : SyncTimesConfig) (isMovie : Bool) : Option Int :=
  if isMovie then cfg.lastFullRefresh.movies else cfg.lastFullRefresh.shows

/-- Embeds `shouldFullRefresh` from `internal/sync/sync.go`, with the current instant
`now` passed explicitly (`time.Since(last) = now - last`). -/
def shouldFullRefresh (cfg : SyncTimesConfig) (isMovie : Bool) (now : Int) : Bool :=
  let days := if cfg.fullRefreshDays ≤ 0 then 7 else cfg.fullRefreshDays
  match lastFullRefresh cfg isMovie with
  | none => true
  | some last => decide (now - last ≥ days * 24 * hourNs)

/-- The C3 property: the trigger fires exactly when the timestamp is absent or
at least `days * 24h` old, `days` being the configured interval if positive
and 7 otherwise. -/
def FullRefreshTriggerCorrect (cfg : SyncTimesConfig) (isMovie : Bool) (now : Int) : Prop :=
  shouldFullRefresh cfg isMovie now = true ↔
    lastFullRefresh cfg isMovie = none ∨
      ∃ l, lastFullRefresh cfg isMovie = some l ∧
        now - l ≥ (if 0 < cfg.fullRefreshDays then cfg.fullRefreshDays else 7) * 24 * hourNs

/-- Claim C3: `shouldFullRefresh(kind)` is true exactly when that kind's
timestamp is absent or `now - lastFullRefreshAt ≥ days * 24h` with `days` the
configured interval if positive and 7 otherwise; with `fullRefreshDays = 7`, a
movies timestamp 8 days old triggers and a shows timestamp 5 days old does
not. -/
theorem shouldFullRefresh_correct (cfg : SyncTimesConfig) (isMovie : Bool) (now : Int) :
    FullRefreshTriggerCorrect cfg isMovie now
    ∧ shouldFullRefresh ⟨7, ⟨some (now - 8 * dayNs), some (now - 5 * dayNs)⟩⟩ true now = true
    ∧ shouldFullRefresh ⟨7, ⟨some (now - 8 * dayNs), some (now - 5 * dayNs)⟩⟩ false now = false := by
  refine ⟨?_, ?_, ?_⟩
  · unfold FullRefreshTriggerCorrect shouldFullRefresh
    rcases h : lastFullRefresh cfg isMovie with _ | l
    · simp
    · simp only [h, decide_eq_true_eq]
      constructor
      · intro hge
        refine Or.inr ⟨l, rfl, ?_⟩
        rcases le_or_lt cfg.fullRefreshDays 0 with hd | hd
        · rw [if_pos hd] at hge
          rw [if_neg (by omega)]
          exact hge
        · rw [if_neg (by omega)] at hge
          rw [if_pos hd]
          exact hge
      · rintro (hno | ⟨l', hl', hge⟩)
        · exact absurd hno (by simp)
        · injection hl' with hl'
          subst hl'
          rcases le_or_lt cfg.fullRefreshDays 0 with hd | hd
          · rw [if_neg (by omega)] at hge
            rw [if_pos hd]
            exact hge
          · rw [if_pos hd] at hge
            rw [if_neg (by omega)]
            exact hge
  · simp only [shouldFullRefresh, lastFullRefresh]
    norm_num [dayNs, hourNs]
  · simp only [shouldFullRefresh, lastFullRefresh]
    norm_num [dayNs, hourNs]

/-! ## Backoff computation (`backoffDuration` in `internal/trakt/client.go`)

Go `time.Duration` is `int64` nanoseconds; both the shift `1 << (attempt-1)`
and the multiplication by `baseBackoff` are 64-bit operations that wrap on
overflow.  `wrap64` is two's-complement wraparound to the signed 64-bit
range. -/

/-- Two's-complement wraparound into `[-2^63, 2^63)`. -/
def wrap64 (n : Int) : Int := (n + 2 ^ 63) % 2 ^ 64 - 2 ^ 63

/-- Value of `baseBackoff = 500 * time.Millisecond` in nanoseconds. -/
def baseBackoffNs : Int := 500000000

/-- Value of `maxBackoff = 5 * time.Second` in nanoseconds. -/
def maxBackoffNs : Int := 5000000000

/-- Embeds `backoffDuration` from `internal/trakt/client.go`:
`delay := baseBackoff * time.Duration(1 << uint(attempt-1))`, clamped to
`maxBackoff` only *after* the shift and multiplication, both of which wrap in
64 bits. -/
def backoffDuration (attempt : Int) : Int :=
  if attempt ≤ 0 then 0
  else
    let shifted := wrap64 (2 ^ (attempt - 1).toNat)
    let delay := wrap64 (baseBackoffNs * shifted)
    if maxBackoffNs < delay then maxBackoffNs else delay

/-- Claim C4 failing input: at attempt 36 (within the claimed range 1..64) the
doubling `500ms * 2^35 = 17179869184000000000 ns` exceeds `int64` maximum and
wraps to a *negative* delay, which the final comparison does not clamp — the
computation does overflow, contradicting the claim that it is computed safely
and clamped to the 5-second cap for any attempt index in 1..64. -/
theorem backoffDuration_overflow_at_36 :
    backoffDuration 36 = -1266874889709551616
    ∧ backoffDuration 36 < 0
    ∧ baseBackoffNs * 2 ^ 35 = 17179869184000000000
    ∧ (2 ^ 63 - 1 : Int) < 17179869184000000000 := by
  refine ⟨?_, ?_, ?_, ?_⟩ <;> decide

/-! ## Rate-limit wait (`waitForRateLimit` in `internal/trakt/client.go`)

The executor state is `rateLimitRemaining : Int` and
`rateLimitReset : Option Int` (`none` is the zero `time.Time`).  The function
returns the duration slept (0 = does not block). -/

/-- Embeds `waitForRateLimit` from `internal/trakt/client.go`, returning the sleep
duration: sleeps `time.Until(reset) = reset - now` only when the remaining
budget is 0, the reset instant is non-zero, and it lies in the future. -/
def waitForRateLimitSleep (remaining : Int) (reset : Option Int) (now : Int) : Int :=
  if remaining = 0 then
    match reset with
    | none => 0
    | some r => if now < r then r - now else 0
  else 0

/-- The C5 property: no sleep when the reset instant is the zero value or not
in the future, and any sleep that does happen is exactly "until `resetAt`"
with an exhausted budget and a future reset. -/
def RateLimitWaitSafe (remaining : Int) (reset : Option Int) (now : Int) : Prop :=
  (remaining = 0 → reset = none → waitForRateLimitSleep remaining reset now = 0)
  ∧ (∀ r, remaining = 0 → reset = some r → r < now → waitForRateLimitSleep remaining reset now = 0)
  ∧ (waitForRateLimitSleep remaining reset now ≠ 0 →
      remaining = 0 ∧ ∃ r, reset = some r ∧ now < r
        ∧ waitForRateLimitSleep remaining reset now = r - now)

/-- Claim C5: with `remainingCalls = 0` and `resetAt` zero or strictly in the
past, `waitForRateLimit` performs no sleep; it sleeps until `resetAt` only
when `remainingCalls = 0` and `resetAt` is in the future. -/
theorem waitForRateLimit_safe (remaining : Int) (reset : Option Int) (now : Int) :
    RateLimitWaitSafe remaining reset now := by
  unfold RateLimitWaitSafe waitForRateLimitSleep
  refine ⟨?_, ?_, ?_⟩
  · rintro rfl rfl
    simp
  · rintro r rfl rfl hpast
    simp [show ¬now < r by omega]
  · intro hne
    rcases eq_or_ne remaining 0 with rfl | h0
    · rcases reset with _ | r
      · simp at hne
      · rcases lt_or_le now r with hf | hf
        · refine ⟨rfl, r, rfl, hf, ?_⟩
          simp [hf]
        · simp [show ¬now < r by omega] at hne
    · simp [h0] at hne

/-- Witness for C5: zero remaining budget with a zero reset instant does not
block. -/
theorem waitForRateLimit_safe_witness :
    RateLimitWaitSafe 0 none 5 :=
  waitForRateLimit_safe 0 none 5

/-! ## Retry loop (`doRequest` in `internal/trakt/client.go`)

A single HTTP attempt (`doRequestOnce`) either succeeds or fails with one of:
a structured `APIError` (status ≥ 400, with server-supplied code/description
and a retry-after hint), a network-level error recognized by
`isRetryableError` (`net.Error`), or some other error (body read, JSON
decode, request construction).  The attempts are supplied by an oracle
indexed by attempt number; the loop itself is embedded faithfully. -/

/-- The possible failures of a single `doRequestOnce` call. -/
inductive ReqError where
  | api (status : Int) (code desc : String) (retryAfter : Int)
  | net (msg : String)
  | other (msg : String)
  deriving Repr, DecidableEq

/-- Embeds `errors.As(err, &apiErr)`: extract the structured `APIError`, if any. -/
def errorsAsAPIError : ReqError → Option (Int × String × String × Int)
  | .api s c d ra => some (s, c, d, ra)
  | _ => none

/-- Embeds `isRetryableError` from `internal/trakt/client.go`: true exactly for
network-level (`net.Error`) failures. -/
def isRetryableError : ReqError → Bool
  | .net _ => true
  | _ => false

/-- The retry decision taken by the body of the `doRequest` loop: a structured
API error retries exactly on status 429 or ≥ 500; otherwise the error retries
exactly when `isRetryableError` holds. -/
def retryDecision (e : ReqError) : Bool :=
  match errorsAsAPIError e with
  | some (s, _, _, _) => decide (s = 429 ∨ 500 ≤ s)
  | none => isRetryableError e

/-- Value of `maxRetries = 3` from `internal/trakt/client.go`. -/
def maxRetries : Nat := 3

/-- The `for attempt := 0; attempt < maxRetries; attempt++` loop of
`doRequest`: `fuel` is the number of iterations left (`maxRetries - attempt`).
A retryable failure continues when another iteration remains; otherwise the
last error is returned.  The result is the final outcome paired with the
number of attempts actually performed. -/
def doRequestAux (oracle : Nat → Option ReqError) : Nat → Nat → Option ReqError × Nat
  | 0, attempt => (none, attempt)
  | fuel + 1, attempt =>
    match oracle attempt with
    | none => (none, attempt + 1)
    | some e =>
      if retryDecision e = true ∧ 0 < fuel then doRequestAux oracle fuel (attempt + 1)
      else (some e, attempt + 1)

/-- Embeds `doRequest` from `internal/trakt/client.go` (retry loop over the attempt
oracle). -/
def doRequest (oracle : Nat → Option ReqError) : Option ReqError × Nat :=
  doRequestAux oracle maxRetries 0

lemma doRequestAux_spec (oracle : Nat → Option ReqError) (fuel attempt : Nat)
    (hfuel : 1 ≤ fuel) :
    attempt + 1 ≤ (doRequestAux oracle fuel attempt).2
    ∧ (doRequestAux oracle fuel attempt).2 ≤ attempt + fuel
    ∧ (∀ i, attempt ≤ i → i + 1 < (doRequestAux oracle fuel attempt).2 →
        ∃ e, oracle i = some e ∧ retryDecision e = true)
    ∧ (doRequestAux oracle fuel attempt).1 = oracle ((doRequestAux oracle fuel attempt).2 - 1)
    ∧ ((doRequestAux oracle fuel attempt).2 < attempt + fuel →
        (doRequestAux oracle fuel attempt).1 = none
        ∨ ∃ e, (doRequestAux oracle fuel attempt).1 = some e ∧ retryDecision e = false) := by
  induction fuel generalizing attempt with
  | zero => omega
  | succ f ih =>
    rcases h : oracle attempt with _ | e
    · simp only [doRequestAux, h]
      refine ⟨le_refl _, by omega, ?_, by simp [h], fun _ => Or.inl (by simp)⟩
      intro i hle hlt
      omega
    · by_cases hc : retryDecision e = true ∧ 0 < f
      · have hrec := ih (attempt + 1) (by omega)
        simp only [doRequestAux, h, if_pos hc]
        refine ⟨by omega, by omega, ?_, hrec.2.2.2.1, ?_⟩
        · intro i hle hlt
          rcases eq_or_lt_of_le hle with rfl | hgt
          · exact ⟨e, h, hc.1⟩
          · exact hrec.2.2.1 i (by omega) hlt
        · intro hlt
          exact hrec.2.2.2.2 (by omega)
      · simp only [doRequestAux, h, if_neg hc]
        refine ⟨le_refl _, by omega, ?_, by simp [h], ?_⟩
        · intro i hle hlt
          omega
        · intro hlt
          have hf : 0 < f := by omega
          have : ¬retryDecision e = true := fun hr => hc ⟨hr, hf⟩
          exact Or.inr ⟨e, rfl, by simpa using this⟩

/-- The C6 property: at most `maxRetries` attempts; every non-final attempt
failed retryably (429, 5xx, or network-level); the outcome is exactly the
last attempt's outcome, all fields of a structured error preserved; an early
stop is a success or a non-retryable error returned immediately; and the
retry classification itself: other 4xx never retried, 429/5xx and network
errors retried, other errors not. -/
def RetryPolicyCorrect (oracle : Nat → Option ReqError) : Prop :=
  (1 ≤ (doRequest oracle).2 ∧ (doRequest oracle).2 ≤ maxRetries)
  ∧ (∀ i, i + 1 < (doRequest oracle).2 → ∃ e, oracle i = some e ∧ retryDecision e = true)
  ∧ (doRequest oracle).1 = oracle ((doRequest oracle).2 - 1)
  ∧ ((doRequest oracle).2 < maxRetries →
      (doRequest oracle).1 = none
      ∨ ∃ e, (doRequest oracle).1 = some e ∧ retryDecision e = false)
  ∧ (∀ s c d ra, 400 ≤ s → s < 500 → s ≠ 429 → retryDecision (.api s c d ra) = false)
  ∧ (∀ s c d ra, s = 429 ∨ 500 ≤ s → retryDecision (.api s c d ra) = true)
  ∧ (∀ m, retryDecision (.net m) = true)
  ∧ (∀ m, retryDecision (.other m) = false)

/-- Claim C6: `doRequest` retries only on network-level transient errors,
HTTP 429, or HTTP 5xx, up to 3 attempts; any other 4xx is returned
immediately; and on exhausting retries the last structured error is returned
unchanged (status, code, description preserved). -/
theorem doRequest_retry_policy (oracle : Nat → Option ReqError) :
    RetryPolicyCorrect oracle := by
  have h := doRequestAux_spec oracle maxRetries 0 (by norm_num [maxRetries])
  unfold RetryPolicyCorrect doRequest
  refine ⟨⟨h.1, h.2.1⟩, ?_, h.2.2.2.1, ?_, ?_, ?_, ?_, ?_⟩
  · intro i hlt
    exact h.2.2.1 i (Nat.zero_le i) hlt
  · intro hlt
    exact h.2.2.2.2 hlt
  · intro s c d ra h1 h2 h3
    simp only [retryDecision, errorsAsAPIError, decide_eq_false_iff_not]
    omega
  · intro s c d ra hor
    simp only [retryDecision, errorsAsAPIError, decide_eq_true_eq]
    exact hor
  · intro m
    rfl
  · intro m
    rfl

/-- A concrete attempt script: first attempt fails with a 500, second
succeeds. -/
def exOracle : Nat → Option ReqError := fun i =>
  if i = 0 then some (.api 500 "" "Internal Server Error" 0) else none

/-- Witness for C6 at the concrete attempt script. -/
theorem doRequest_retry_policy_witness : RetryPolicyCorrect exOracle :=
  doRequest_retry_policy exOracle

/-! ## Aggregate sync (`SyncAll` in `internal/sync/sync.go` and `syncExitCode`
in `cmd/trakt-sync/main.go`)

Each configured list is abstracted to whether it is enabled and whether its
`SyncList` run succeeds; `SyncAll` tallies the counters over the list slice
and returns `ErrAllFailed` (modelled as the boolean of the pair) exactly as
the Go code does. -/

/-- One list definition together with the outcome its sync run would have. -/
structure ListRun where
  enabled : Bool
  ok : Bool
  deriving Repr, DecidableEq

/-- Embeds `SyncResult` from `internal/sync/sync.go` (counters only; the duration is
timing plumbing irrelevant to the outcome classification). -/
structure SyncResult where
  successful : Nat
  failed : Nat
  total : Nat
  deriving Repr, DecidableEq

/-- One iteration of the `SyncAll` loop body. -/
def syncAllStep (acc : SyncResult) (l : ListRun) : SyncResult :=
  if l.enabled then
    if l.ok then
      { acc with total := acc.total + 1, successful := acc.successful + 1 }
    else
      { acc with total := acc.total + 1, failed := acc.failed + 1 }
  else acc

/-- Embeds `SyncAll` from `internal/sync/sync.go`: the boolean of the pair records
whether `ErrAllFailed` is returned (`result.Failed > 0 && result.Successful
== 0` once at least one list was attempted). -/
def syncAll (lists : List ListRun) : SyncResult × Bool :=
  let result := lists.foldl syncAllStep ⟨0, 0, 0⟩
  if result.total = 0 then (result, false)
  else if 0 < result.failed ∧ result.successful = 0 then (result, true)
  else (result, false)

/-- Embeds `syncExitCode` from `cmd/trakt-sync/main.go` (`err != nil` collapses to a
boolean because `ErrAllFailed` is the only error `SyncAll` returns, and both
branches of the Go `errors.Is` check yield 2). -/
def syncExitCode (result : SyncResult) (errPresent : Bool) : Int :=
  if errPresent then 2
  else if result.total = 0 then 0
  else if 0 < result.failed then (if result.successful = 0 then 2 else 1)
  else 0

lemma syncAll_foldl (lists : List ListRun) (acc : SyncResult) :
    lists.foldl syncAllStep acc =
      ⟨acc.successful + lists.countP (fun l => l.enabled && l.ok),
       acc.failed + lists.countP (fun l => l.enabled && !l.ok),
       acc.total + lists.countP (fun l => l.enabled)⟩ := by
  induction lists generalizing acc with
  | nil => simp
  | cons l rest ih =>
    rw [List.foldl_cons, ih]
    rcases l with ⟨e, o⟩
    cases e <;> cases o <;>
      simp [syncAllStep, List.countP_cons] <;>
      constructor <;> omega

lemma syncExitCode_eval (s f t : Nat) (e : Bool) :
    syncExitCode ⟨s, f, t⟩ e =
      if e then 2 else if t = 0 then 0 else if 0 < f then (if s = 0 then 2 else 1) else 0 := rfl

/-- The C7 property: the four aggregate outcome classes and their exit
codes. -/
def AggregateOutcomeCorrect (lists : List ListRun) : Prop :=
  ((∀ l ∈ lists, l.enabled = false) →
      (syncAll lists).1.total = 0 ∧ (syncAll lists).2 = false
      ∧ syncExitCode (syncAll lists).1 (syncAll lists).2 = 0)
  ∧ ((∃ l ∈ lists, l.enabled = true) → (∀ l ∈ lists, l.enabled = true → l.ok = false) →
      (syncAll lists).2 = true ∧ syncExitCode (syncAll lists).1 (syncAll lists).2 = 2)
  ∧ ((∃ l ∈ lists, l.enabled = true ∧ l.ok = true) →
     (∃ l ∈ lists, l.enabled = true ∧ l.ok = false) →
      (syncAll lists).2 = false ∧ 0 < (syncAll lists).1.failed
      ∧ 0 < (syncAll lists).1.successful
      ∧ syncExitCode (syncAll lists).1 (syncAll lists).2 = 1)
  ∧ ((∀ l ∈ lists, l.enabled = true → l.ok = true) →
      (syncAll lists).2 = false ∧ syncExitCode (syncAll lists).1 (syncAll lists).2 = 0)

/-- Claim C7: zero enabled lists is a no-op success (`Total = 0`, no error,
exit 0); all attempted lists failing returns `ErrAllFailed` (exit 2); a mix
of failure and success is a partial failure (no error, `Failed > 0`,
`Successful > 0`, exit 1); all succeeding is a full success (exit 0). -/
theorem syncAll_outcomes (lists : List ListRun) : AggregateOutcomeCorrect lists := by
  have hfold := syncAll_foldl lists ⟨0, 0, 0⟩
  unfold AggregateOutcomeCorrect syncAll
  rw [hfold]
  simp only [Nat.zero_add]
  refine ⟨?_, ?_, ?_, ?_⟩
  · intro hall
    have htot : lists.countP (fun l => l.enabled) = 0 := by
      rw [List.countP_eq_zero]
      intro l hl
      simp [hall l hl]
    simp [htot, syncExitCode]
  · rintro ⟨l0, hl0, he0⟩ hfail
    have htot : 0 < lists.countP (fun l => l.enabled) := by
      rw [List.countP_pos_iff]
      exact ⟨l0, hl0, by simp [he0]⟩
    have hfailpos : 0 < lists.countP (fun l => l.enabled && !l.ok) := by
      rw [List.countP_pos_iff]
      exact ⟨l0, hl0, by simp [he0, hfail l0 hl0 he0]⟩
    have hsucc : lists.countP (fun l => l.enabled && l.ok) = 0 := by
      rw [List.countP_eq_zero]
      intro l hl
      by_cases he : l.enabled
      · simp [hfail l hl he]
      · simp [he]
    rw [if_neg (by omega), if_pos ⟨hfailpos, hsucc⟩]
    exact ⟨rfl, rfl⟩
  · rintro ⟨ls, hls, hes, hos⟩ ⟨lf, hlf, hef, hof⟩
    have hsucc : 0 < lists.countP (fun l => l.enabled && l.ok) := by
      rw [List.countP_pos_iff]
      exact ⟨ls, hls, by simp [hes, hos]⟩
    have hfailpos : 0 < lists.countP (fun l => l.enabled && !l.ok) := by
      rw [List.countP_pos_iff]
      exact ⟨lf, hlf, by simp [hef, hof]⟩
    have htot : 0 < lists.countP (fun l => l.enabled) := by
      rw [List.countP_pos_iff]
      exact ⟨ls, hls, by simp [hes]⟩
    rw [if_neg (by omega), if_neg (by omega)]
    refine ⟨rfl, hfailpos, hsucc, ?_⟩
    rw [syncExitCode_eval, if_neg (by simp), if_neg (by omega), if_pos hfailpos,
      if_neg (by omega)]
  · intro hok
    have hfail0 : lists.countP (fun l => l.enabled && !l.ok) = 0 := by
      rw [List.countP_eq_zero]
      intro l hl
      by_cases he : l.enabled
      · simp [he, hok l hl he]
      · simp [he]
    by_cases htot : lists.countP (fun l => l.enabled) = 0
    · simp [htot, syncExitCode]
    · rw [if_neg htot, if_neg (by omega)]
      refine ⟨rfl, ?_⟩
      rw [syncExitCode_eval, if_neg (by simp), if_neg htot, if_neg (by omega)]

/-- Witness for C7: two enabled lists, one succeeding and one failing. -/
theorem syncAll_outcomes_witness :
    AggregateOutcomeCorrect [⟨true, true⟩, ⟨true, false⟩] :=
  syncAll_outcomes [⟨true, true⟩, ⟨true, false⟩]

/-! ## List manager (`GetList` / `EnsureListExists` in `internal/trakt/lists.go`) -/

/-- Embeds `ListIDs` from the Go model. -/
structure ListIDs where
  trakt : Int
  slug : String
  deriving Repr, DecidableEq

/-- Embeds `List` from the Go model (named `TraktList` to avoid clashing with Lean's
`List`).  `createdAt`/`updatedAt` are instants (`none` = zero time). -/
structure TraktList where
  name : String
  description : String
  privacy : String
  displayNumbers : Bool
  allowComments : Bool
  sortBy : String
  sortHow : String
  createdAt : Option Int
  updatedAt : Option Int
  itemCount : Int
  commentCount : Int
  likes : Int
  ids : ListIDs
  deriving Repr, DecidableEq

/-- Embeds `CreateListRequest` from the Go model. -/
structure CreateListRequest where
  name : String
  description : String
  privacy : String
  displayNumbers : Bool
  allowComments : Bool
  deriving Repr, DecidableEq

/-- The outcome of the `doRequest` call issued by `GetList`: a decoded list on
success, otherwise the error together with the response status when a
response was received (`resp != nil`). -/
inductive DoReqResult where
  | success (l : TraktList)
  | failure (respStatus : Option Int) (e : ReqError)
  deriving Repr, DecidableEq

/-- Embeds `GetList` from `internal/trakt/lists.go`: a 404 response is reported as
"no list, no error" (`nil, nil`); any other failure propagates. -/
def getList (r : DoReqResult) : Except ReqError (Option TraktList) :=
  match r with
  | .success l => .ok (some l)
  | .failure respStatus e =>
    if respStatus = some 404 then .ok none else .error e

/-- Embeds `EnsureListExists` from `internal/trakt/lists.go`: fetch by slug; when the
list is absent, create it with the given metadata, defaulting privacy to
`"private"` when unset.  The returned value records the create request that
was submitted, if any. -/
def ensureListExists (name description privacy : String) (fetch : DoReqResult) :
    Except ReqError (Option CreateListRequest) :=
  match getList fetch with
  | .error e => .error e
  | .ok (some _) => .ok none
  | .ok none =>
    .ok (some { name := name, description := description,
                privacy := if privacy = "" then "private" else privacy,
                displayNumbers := true, allowComments := false })

/-- Modelled from the spec: the remote service's honest get-by-slug behavior
("get-by-slug (404 if absent)") for a server that does or does not have the
list. -/
def honestFetch (srv : Option TraktList) : DoReqResult :=
  match srv with
  | some l => .success l
  | none => .failure (some 404) (.api 404 "" "" 0)

/-- Modelled from the spec: the server state after the create call implied by
`ensureListExists`'s action ("creates it with the given metadata"). -/
def serverAfter (srv : Option TraktList) (act : Option CreateListRequest) : Option TraktList :=
  match act with
  | none => srv
  | some req =>
    some { name := req.name, description := req.description, privacy := req.privacy,
           displayNumbers := req.displayNumbers, allowComments := req.allowComments,
           sortBy := "rank", sortHow := "asc", createdAt := none, updatedAt := none,
           itemCount := 0, commentCount := 0, likes := 0, ids := ⟨0, ""⟩ }

/-- The C8 property: 404 leads to creation with the given metadata and
defaulted privacy; any other fetch error propagates without creating; a
present list is left alone; and on an honest server the operation is
idempotent (the second call never creates and never errors). -/
def EnsureListCorrect (name description privacy : String) : Prop :=
  (∀ e, ensureListExists name description privacy (.failure (some 404) e) =
      .ok (some ⟨name, description, (if privacy = "" then "private" else privacy),
                 true, false⟩))
  ∧ (∀ st e, st ≠ some 404 →
      ensureListExists name description privacy (.failure st e) = .error e)
  ∧ (∀ l, ensureListExists name description privacy (.success l) = .ok none)
  ∧ (∀ srv, ∃ act,
      ensureListExists name description privacy (honestFetch srv) = .ok act
      ∧ ensureListExists name description privacy (honestFetch (serverAfter srv act))
          = .ok none)

/-- Claim C8: `EnsureListExists` creates the list (privacy defaulting to
`"private"` when empty) exactly on a 404-equivalent fetch result, propagates
any other fetch error without creating, and is idempotent — a second call
never creates a duplicate and never errors when the list is present. -/
theorem ensureListExists_correct (name description privacy : String) :
    EnsureListCorrect name description privacy := by
  refine ⟨?_, ?_, ?_, ?_⟩
  · intro e
    rfl
  · intro st e hne
    simp [ensureListExists, getList, hne]
  · intro l
    rfl
  · intro srv
    rcases srv with _ | l
    · exact ⟨some ⟨name, description, (if privacy = "" then "private" else privacy),
               true, false⟩, rfl, rfl⟩
    · exact ⟨none, rfl, rfl⟩

/-- Witness for C8: the movies list metadata with unset privacy. -/
theorem ensureListExists_correct_witness :
    EnsureListCorrect "Trakt Sync Filme" "Top 20 trending and top 20 streaming charts movies" "" :=
  ensureListExists_correct _ _ _

/-! ## Device-flow authenticator (`PollForToken` in the trakt package)

Each tick of the poll timer performs one token request; the scripted
responses stand in for the server.  Absolute time advances by the current
interval at every tick; the `time.After(expiresIn)` channel fires first
exactly when the expiry instant precedes the next tick. -/

/-- Embeds `TokenResponse` from the Go model (`expiresIn` in seconds, `createdAt` a
Unix timestamp in seconds). -/
structure TokenResponse where
  accessToken : String
  tokenType : String
  expiresIn : Int
  refreshToken : String
  scope : String
  createdAt : Int
  deriving Repr, DecidableEq

/-- What one iteration of the `PollForToken` select/switch decides. -/
inductive PollStepResult where
  | authorized (tok : TokenResponse)
  | denied
  | expired
  | keepPolling (newInterval : Int)
  | failed (e : ReqError)
  deriving Repr, DecidableEq

/-- The body of the `PollForToken` loop (the `switch apiErr.Code` plus the
bare-400 tolerance check), given the current interval in seconds and the
token request's outcome. -/
def pollStep (interval : Int) (r : Except ReqError TokenResponse) : PollStepResult :=
  match r with
  | .ok tok => .authorized tok
  | .error e =>
    match errorsAsAPIError e with
    | some (status, code, _, _) =>
      if code = "authorization_pending" then .keepPolling interval
      else if code = "slow_down" then .keepPolling (interval + 5)
      else if code = "access_denied" then .denied
      else if code = "expired_token" then .expired
      else if code = "" ∧ status = 400 then .keepPolling interval
      else .failed e
    | none => .failed e

/-- The terminal outcome of a polling run. -/
inductive PollOutcome where
  | authorized (tok : TokenResponse)
  | denied
  | expired
  | timedOut
  | failed (e : ReqError)
  | scriptExhausted
  deriving Repr, DecidableEq

/-- The `PollForToken` select loop: `elapsed` is the time already spent,
`interval` the current tick interval, and the timeout channel (armed at
`expiresIn`) fires before the next tick exactly when `expiresIn` precedes
`elapsed + interval`.  `scriptExhausted` only marks running out of scripted
responses while still polling. -/
def pollLoop (expiresIn : Int) : List (Except ReqError TokenResponse) → Int → Int → PollOutcome
  | [], elapsed, interval =>
    if expiresIn < elapsed + interval then .timedOut else .scriptExhausted
  | r :: rest, elapsed, interval =>
    if expiresIn < elapsed + interval then .timedOut
    else
      match pollStep interval r with
      | .keepPolling newInterval => pollLoop expiresIn rest (elapsed + interval) newInterval
      | .authorized tok => .authorized tok
      | .denied => .denied
      | .expired => .expired
      | .failed e => .failed e

/-- Embeds `PollForToken` from the trakt package: normalizes a non-positive interval
to 5 s and a non-positive expiry window to 600 s, then polls. -/
def pollForToken (interval expiresIn : Int)
    (resps : List (Except ReqError TokenResponse)) : PollOutcome :=
  let i := if interval ≤ 0 then 5 else interval
  let e := if expiresIn ≤ 0 then 10 * 60 else expiresIn
  pollLoop e resps 0 i

/-- The C9 property: the step relation of the device-flow poller, plus the
loop-level facts that a `keepPolling` step reschedules the timer at the new
interval and that exceeding the expiry window times out regardless of the
scripted responses. -/
def DevicePollCorrect : Prop :=
  (∀ i tok, pollStep i (.ok tok) = .authorized tok)
  ∧ (∀ i s d ra, pollStep i (.error (.api s "authorization_pending" d ra)) = .keepPolling i)
  ∧ (∀ i s d ra, pollStep i (.error (.api s "slow_down" d ra)) = .keepPolling (i + 5))
  ∧ (∀ i s d ra, pollStep i (.error (.api s "access_denied" d ra)) = .denied)
  ∧ (∀ i s d ra, pollStep i (.error (.api s "expired_token" d ra)) = .expired)
  ∧ (∀ i d ra, pollStep i (.error (.api 400 "" d ra)) = .keepPolling i)
  ∧ (∀ expiresIn elapsed i r rest newInterval, pollStep i r = .keepPolling newInterval →
      ¬expiresIn < elapsed + i →
      pollLoop expiresIn (r :: rest) elapsed i = pollLoop expiresIn rest (elapsed + i) newInterval)
  ∧ (∀ expiresIn elapsed i resps, expiresIn < elapsed + i →
      pollLoop expiresIn resps elapsed i = .timedOut)

/-- Claim C9: on "authorization pending" the poller keeps polling with the
interval unchanged; on "slow down" it keeps polling with the interval
increased by 5 s and the timer rescheduled at the new interval; "access
denied" and "expired token" are terminal failures; a 400-status error with no
recognized code keeps polling; and once elapsed time exceeds the expiry
window the run times out regardless of server responses. -/
theorem pollForToken_state_machine : DevicePollCorrect := by
  refine ⟨fun i tok => rfl, fun i s d ra => rfl, fun i s d ra => rfl, fun i s d ra => rfl,
    fun i s d ra => rfl, fun i d ra => rfl, ?_, ?_⟩
  · intro expiresIn elapsed i r rest newInterval hstep htime
    simp only [pollLoop, if_neg htime, hstep]
  · intro expiresIn elapsed i resps htime
    cases resps <;> simp only [pollLoop, if_pos htime]

/-- Witness for C9: a slow-down step at interval 5 bumps the interval to 10,
and a poll whose next tick would land past the expiry window times out. -/
theorem pollForToken_state_machine_witness :
    pollStep 5 (.error (.api 400 "slow_down" "" 0)) = .keepPolling 10
    ∧ pollLoop 600 [.error (.api 400 "authorization_pending" "" 0)] 599 5 = .timedOut :=
  ⟨pollForToken_state_machine.2.2.1 5 400 "" 0,
   pollForToken_state_machine.2.2.2.2.2.2.2 600 599 5 _ (by omega)⟩

/-! ## Token refresh (`RefreshAccessToken` in the trakt package) -/

/-- The client's stored token pair. -/
structure ClientTokens where
  accessToken : String
  refreshToken : String
  deriving Repr, DecidableEq

/-- The errors `RefreshAccessToken` can return: the distinct "no refresh
token available" error, or the wrapped request failure. -/
inductive RefreshError where
  | noRefreshToken
  | requestFailed (e : ReqError)
  deriving Repr, DecidableEq

/-- What a `RefreshAccessToken` call leaves behind: the client's token state
after the call, the arguments passed to the `onTokenRefresh` callback (if it
was invoked), and the returned value. -/
structure RefreshResult where
  tokens : ClientTokens
  callback : Option (String × String × Int)
  result : Except RefreshError TokenResponse
  deriving Repr

/-- Embeds `RefreshAccessToken` from the trakt package: refuses to run without a
stored refresh token; on success stores the new pair and, when a callback is
registered, invokes it with the new tokens and the expiry
`time.Unix(created_at, 0) + expires_in` (seconds). -/
def refreshAccessToken (st : ClientTokens) (hasCallback : Bool)
    (reqOutcome : Except ReqError TokenResponse) : RefreshResult :=
  if st.refreshToken = "" then
    { tokens := st, callback := none, result := .error .noRefreshToken }
  else
    match reqOutcome with
    | .error e => { tokens := st, callback := none, result := .error (.requestFailed e) }
    | .ok resp =>
      { tokens := { accessToken := resp.accessToken, refreshToken := resp.refreshToken },
        callback :=
          if hasCallback then
            some (resp.accessToken, resp.refreshToken, resp.createdAt + resp.expiresIn)
          else none,
        result := .ok resp }

/-- The C10 property: the empty-refresh-token failure (distinct error, state
untouched, callback not invoked) and the success path (new pair stored,
callback invoked exactly when registered, expiry `created_at + expires_in`). -/
def RefreshTokenCorrect : Prop :=
  (∀ st cb out, st.refreshToken = "" →
      refreshAccessToken st cb out =
        { tokens := st, callback := none, result := .error .noRefreshToken })
  ∧ (∀ e, RefreshError.noRefreshToken ≠ RefreshError.requestFailed e)
  ∧ (∀ st resp, st.refreshToken ≠ "" →
      refreshAccessToken st true (.ok resp) =
        { tokens := ⟨resp.accessToken, resp.refreshToken⟩,
          callback := some (resp.accessToken, resp.refreshToken,
            resp.createdAt + resp.expiresIn),
          result := .ok resp })
  ∧ (∀ st resp, st.refreshToken ≠ "" →
      (refreshAccessToken st false (.ok resp)).callback = none)

/-- Claim C10: with an empty stored refresh token, `RefreshAccessToken`
returns the distinct no-refresh-token error, leaves the stored tokens
unchanged, and never invokes the callback; on success it stores the new
access+refresh pair and invokes the registered callback with the new tokens
and expiry `created_at + expires_in`. -/
theorem refreshAccessToken_correct : RefreshTokenCorrect := by
  refine ⟨?_, ?_, ?_, ?_⟩
  · intro st cb out h
    unfold refreshAccessToken
    rw [if_pos h]
  · intro e h
    cases h
  · intro st resp h
    unfold refreshAccessToken
    rw [if_neg h]
    rfl
  · intro st resp h
    unfold refreshAccessToken
    rw [if_neg h]
    rfl

/-- Witness for C10: a client with an empty refresh token is refused with the
distinct error and no callback. -/
theorem refreshAccessToken_correct_witness :
    refreshAccessToken ⟨"acc", ""⟩ true (.error (.net "timeout")) =
      { tokens := ⟨"acc", ""⟩, callback := none, result := .error .noRefreshToken } :=
  refreshAccessToken_correct.1 ⟨"acc", ""⟩ true (.error (.net "timeout")) rfl

end TraktSync
